import Mathlib

/-!
Verification of the multi-format freight-invoice field-extraction engine
(`src/app.py`), a shallow embedding in Lean 4.

Embedding conventions:
* Document text is the input: the program joins the PDF pages into one text
  string before any field logic runs, and the pdf-to-text step is an external
  collaborator, so the embedded parser takes the extracted text directly.
* Python regular expressions are embedded by a small backtracking engine
  (`matchRE` below) with Python `re.search` semantics restricted to the
  constructs the eleven patterns of the source actually use: literal
  characters under `re.I`, character classes, alternation (leftmost branch
  first), greedy and lazy repetition, word boundary, multiline end of line,
  and one capture group per pattern.  The search is leftmost: the first
  start position admitting a match wins, and at that position the
  backtracking order decides, exactly as in CPython.
* Python floats are modeled as exact rationals.  The numeric literals the
  patterns can capture are plain decimal strings, and the only arithmetic is
  max, division by 167 and multiplication by 167 on such values, so the
  rational model agrees with the program on the values of interest.
* Python `float(...)` is modeled on the sublanguage of strings the capture
  groups can produce (digits, dots and stripped commas): it returns `none`
  exactly where `float` raises `ValueError`.
* Exception flow: in the source the whole body is wrapped in
  `try ... except Exception: return None`, so any raised conversion error
  becomes a document-level `None`.  The embedding mirrors this by making
  each conversion return an `Option` and propagating `none` to the result.
* The `datetime.now()` timestamp is an input parameter (`now`), making the
  dependence of the result on the clock explicit.
* Characters are treated as ASCII for case conversion and the whitespace
  and digit classes, which agrees with Python on the texts these invoice
  formats contain.
-/

namespace Invoice

abbrev Str := List Char

/-- The apostrophe character, written by code point. -/
def apos : Char := Char.ofNat 39

/-- Python whitespace characters matched by the regex class backslash-s
(space, tab, newline, carriage return, vertical tab, form feed). -/
def isPySpace (c : Char) : Bool :=
  c == ' ' || c == '\t' || c == '\n' || c == '\r' ||
  c == Char.ofNat 11 || c == Char.ofNat 12

/-- ASCII decimal digit, the regex class backslash-d. -/
def isDig (c : Char) : Bool := c.isDigit

/-- Word character for the word-boundary assertion: letters, digits, underscore. -/
def isWordChar (c : Char) : Bool := c.isAlphanum || c == '_'

/-- Case-insensitive single-character match, the behavior of a literal
character under the `re.I` flag for ASCII text. -/
def ciChar (c : Char) : Char → Bool := fun x => x.toUpper == c.toUpper

/-- Any character except newline: the regex `.` without `re.S`, and the
class excluding newline. -/
def anyNoNL (c : Char) : Bool := !(c == '\n')

/-- Regular-expression abstract syntax covering the constructs used by the
patterns of the source file. -/
inductive RE where
  | eps : RE
  | cls : (Char → Bool) → RE
  | cat : RE → RE → RE
  | alt : RE → RE → RE
  | starG : RE → RE
  | starL : RE → RE
  | bnd : RE
  | eol : RE

/-- Left-biased choice on options, the backtracking priority combinator. -/
def oalt {α : Type} : Option α → Option α → Option α
  | some v, _ => some v
  | none, b => b

/-- Whether position `i` of `s` holds a word character. -/
def isWordAt (s : Str) (i : Nat) : Bool :=
  match s[i]? with
  | some c => isWordChar c
  | none => false

/-- Word boundary test at position `i` of `s`: the two sides disagree on
being a word character, positions outside the string counting as non-word. -/
def wordBoundary (s : Str) (i : Nat) : Bool :=
  (match i with
   | 0 => false
   | Nat.succ j => isWordAt s j) != isWordAt s i

/-- End-of-line test for the `$` anchor under `re.M`: end of the string or
just before a newline. -/
def atEol (s : Str) (i : Nat) : Bool :=
  i == s.length || s[i]? == some '\n'

/-- Greedy repetition: at each step prefer one more iteration of the body
(`step`), falling back to the continuation; iterations must consume input. -/
def starGr (step : Nat → (Nat → Option (Nat × Nat)) → Option (Nat × Nat)) :
    Nat → Nat → (Nat → Option (Nat × Nat)) → Option (Nat × Nat)
  | 0, i, k => k i
  | Nat.succ fuel, i, k =>
      oalt (step i (fun j => if i < j then starGr step fuel j k else none)) (k i)

/-- Lazy repetition: at each step prefer the continuation, falling back to
one more iteration of the body; iterations must consume input. -/
def starLz (step : Nat → (Nat → Option (Nat × Nat)) → Option (Nat × Nat)) :
    Nat → Nat → (Nat → Option (Nat × Nat)) → Option (Nat × Nat)
  | 0, i, k => k i
  | Nat.succ fuel, i, k =>
      oalt (k i) (step i (fun j => if i < j then starLz step fuel j k else none))

/-- Backtracking matcher in continuation-passing style.  `matchRE s r i k`
tries to match `r` at position `i` of `s` and calls `k` with the position
after each candidate match, in backtracking priority order; the first
continuation success is returned. -/
def matchRE (s : Str) : RE → Nat → (Nat → Option (Nat × Nat)) → Option (Nat × Nat)
  | RE.eps, i, k => k i
  | RE.cls p, i, k =>
      match s[i]? with
      | some c => if p c then k (i + 1) else none
      | none => none
  | RE.cat a b, i, k => matchRE s a i (fun j => matchRE s b j k)
  | RE.alt a b, i, k => oalt (matchRE s a i k) (matchRE s b i k)
  | RE.starG r, i, k => starGr (fun j k2 => matchRE s r j k2) (s.length + 1) i k
  | RE.starL r, i, k => starLz (fun j k2 => matchRE s r j k2) (s.length + 1) i k
  | RE.bnd, i, k => if wordBoundary s i then k i else none
  | RE.eol, i, k => if atEol s i then k i else none

/-- Sequence of single-character classes. -/
def seqCls (ps : List (Char → Bool)) : RE :=
  ps.foldr (fun p r => RE.cat (RE.cls p) r) RE.eps

/-- Case-insensitive literal string, character by character. -/
def litCI (t : String) : RE := seqCls (t.toList.map ciChar)

/-- Greedy optional element, the regex `?`. -/
def optG (r : RE) : RE := RE.alt r RE.eps

/-- Greedy one-or-more repetition, the regex `+`. -/
def plusG (r : RE) : RE := RE.cat r (RE.starG r)

/-- Sequence of regular expressions. -/
def cats (l : List RE) : RE := l.foldr RE.cat RE.eps

/-- A source pattern with its single capture group: the part before the
group, the group itself, and the part after the group. -/
structure Pat where
  pre : RE
  grp : RE
  post : RE

/-- Match a pattern at position `i`, returning the span of the capture
group of the first match in backtracking order. -/
def searchCapAt (s : Str) (p : Pat) (i : Nat) : Option (Nat × Nat) :=
  matchRE s p.pre i (fun j =>
    matchRE s p.grp j (fun l =>
      matchRE s p.post l (fun _ => some (j, l))))

/-- Try `f` at `count` consecutive positions starting at `i`, returning the
first success: the leftmost-match rule of `re.search`. -/
def firstSome (f : Nat → Option (Nat × Nat)) : Nat → Nat → Option (Nat × Nat)
  | 0, _ => none
  | Nat.succ c, i => oalt (f i) (firstSome f c (i + 1))

/-- The sublist of `s` from position `i` (inclusive) to `j` (exclusive). -/
def extractL (s : Str) (i j : Nat) : Str := (s.drop i).take (j - i)

/-- Span of the capture group of the leftmost match of `p` in `s`. -/
def searchSpan (p : Pat) (s : Str) : Option (Nat × Nat) :=
  firstSome (searchCapAt s p) (s.length + 1) 0

/-- Text of the capture group (`m.group(1)`) of the leftmost match of `p`
in `s`, or `none` when the pattern does not match: `re.search`. -/
def searchCap (p : Pat) (s : Str) : Option Str :=
  (searchSpan p s).map (fun sp => extractL s sp.1 sp.2)

/-- Whitespace class as a regex element. -/
def spaceCls : RE := RE.cls isPySpace

/-- Digit class as a regex element. -/
def digCls : RE := RE.cls isDig

/-- The class of digits and the dot, the source class of digits-and-dot. -/
def digDot : RE := RE.cls (fun c => isDig c || c == '.')

/-- The class of digits and the comma, the source class of digits-and-comma. -/
def digComma : RE := RE.cls (fun c => isDig c || c == ',')

/-- Any character except newline as a regex element. -/
def dotAny : RE := RE.cls anyNoNL

/-- Capture group of the invoice-date pattern: a dot-separated date of shape
two digits, dot, two digits, dot, four digits, or a dash-separated date of
shape four digits, dash, two digits, dash, two digits, the dot branch first. -/
def dateGrp : RE :=
  RE.alt
    (seqCls [isDig, isDig, (· == '.'), isDig, isDig, (· == '.'),
             isDig, isDig, isDig, isDig])
    (seqCls [isDig, isDig, isDig, isDig, (· == '-'), isDig, isDig,
             (· == '-'), isDig, isDig])

/-- Embedding of `INVOICE_DATE_PAT`: label alternation, optional separator,
then the date capture group. -/
def INVOICE_DATE_PAT : Pat where
  pre := cats
    [RE.alt (litCI "INVOICE DATE")
       (RE.alt (cats [litCI "INVOICE NO", optG (RE.cls (ciChar '.')), litCI "/ DATE"])
         (litCI "DATE")),
     RE.starG spaceCls,
     optG (RE.cls (fun c => c == ':' || c == '-')),
     RE.starG spaceCls]
  grp := dateGrp
  post := RE.eps

/-- Embedding of `SHIPPER_PAT_KLN`: the literal label, a lazy run of
non-newline characters, a newline, then the rest of that line captured. -/
def SHIPPER_PAT_KLN : Pat where
  pre := cats
    [litCI "SHIPPER", RE.cls (· == apos), litCI "S NAME",
     RE.starL dotAny, RE.cls (· == '\n')]
  grp := plusG dotAny
  post := RE.eps

/-- Embedding of `SHIPPER_PAT_KN`: the literal label, optional space, a
colon, optional space, then the rest of the line captured. -/
def SHIPPER_PAT_KN : Pat where
  pre := cats
    [litCI "SHIPPER", RE.starG spaceCls, RE.cls (· == ':'), RE.starG spaceCls]
  grp := plusG dotAny
  post := RE.eps

/-- Embedding of `PIECES_PAT`: a word boundary, a captured digit run,
whitespace, then the literal PACKAGE. -/
def PIECES_PAT : Pat where
  pre := RE.bnd
  grp := plusG digCls
  post := RE.cat (plusG spaceCls) (litCI "PACKAGE")

/-- Embedding of `WEIGHT_PAT`: the literal Gross Weight, a lazy gap, a
captured run of digits and dots, optional space, then the literal KG. -/
def WEIGHT_PAT : Pat where
  pre := RE.cat (litCI "Gross Weight") (RE.starL dotAny)
  grp := plusG digDot
  post := RE.cat (RE.starG spaceCls) (litCI "KG")

/-- Embedding of `VOLUME_PAT`: a captured run of digits and dots, optional
space, then the literal CBM. -/
def VOLUME_PAT : Pat where
  pre := RE.eps
  grp := plusG digDot
  post := RE.cat (RE.starG spaceCls) (litCI "CBM")

/-- Embedding of `CHARGEABLE_KG_PAT`: the literal Chargeable Weight, a lazy
gap, then a captured run of digits and dots. -/
def CHARGEABLE_KG_PAT : Pat where
  pre := RE.cat (litCI "Chargeable Weight") (RE.starL dotAny)
  grp := plusG digDot
  post := RE.eps

/-- Embedding of `VOLUME_WEIGHT_KG_PAT`: the literal Volume Weight, one or
more colon-or-space characters, then a captured run of digits and dots. -/
def VOLUME_WEIGHT_KG_PAT : Pat where
  pre := RE.cat (litCI "Volume Weight")
    (plusG (RE.cls (fun c => c == ':' || isPySpace c)))
  grp := plusG digDot
  post := RE.eps

/-- Capture group shared by the monetary patterns: a run of digits and
commas, a dot, then exactly two digits. -/
def moneyGrp : RE :=
  cats [plusG digComma, RE.cls (· == '.'), digCls, digCls]

/-- Embedding of `SUBTOTAL_PAT`: the literal Total, optional space, an
optional colon or dash, optional space, then the captured amount. -/
def SUBTOTAL_PAT : Pat where
  pre := cats
    [litCI "Total", RE.starG spaceCls,
     optG (RE.cls (fun c => c == ':' || c == '-')), RE.starG spaceCls]
  grp := moneyGrp
  post := RE.eps

/-- Embedding of `KLN_FREIGHT_AMOUNT_PAT`: the literal AIR FREIGHT, a lazy
non-newline gap, the captured amount, optional whitespace, then the
multiline end-of-line anchor. -/
def KLN_FREIGHT_AMOUNT_PAT : Pat where
  pre := RE.cat (litCI "AIR FREIGHT") (RE.starL dotAny)
  grp := moneyGrp
  post := RE.cat (RE.starG spaceCls) RE.eol

/-- Embedding of `KN_FREIGHT_USD_PAT`: the literal AIRFREIGHT, a lazy gap,
the literal USD, optional space, then the captured amount. -/
def KN_FREIGHT_USD_PAT : Pat where
  pre := cats
    [litCI "AIRFREIGHT", RE.starL dotAny, litCI "USD", RE.starG spaceCls]
  grp := moneyGrp
  post := RE.eps

/-- Capture group of the filename-identifier pattern: four to six digits
(greedy) with an optional trailing uppercase letter. -/
def idGrp : RE :=
  cats [digCls, digCls, digCls, digCls,
        optG (RE.cat digCls (optG digCls)),
        optG (RE.cls (fun c => 'A' ≤ c && c ≤ 'Z'))]

/-- Embedding of the pattern of `extract_invoice_id`. -/
def ID_PAT : Pat where
  pre := RE.eps
  grp := idGrp
  post := RE.eps

/-- Python `str.upper` on ASCII text. -/
def pyUpper (l : Str) : Str := l.map Char.toUpper

/-- Python `str.strip`: drop whitespace from both ends. -/
def pyStrip (l : Str) : Str :=
  ((l.dropWhile isPySpace).reverse.dropWhile isPySpace).reverse

/-- Python `str.split` on the dot separator: empty segments preserved,
the empty string splitting to one empty segment. -/
def splitDot : Str → List Str
  | [] => [[]]
  | c :: t =>
      match splitDot t with
      | h :: r => if c = '.' then [] :: h :: r else (c :: h) :: r
      | [] => [[c]]

/-- Numeric value of a digit string, most significant digit first. -/
def natOfDigits (l : Str) : Nat :=
  l.foldl (fun a c => a * 10 + (c.toNat - 48)) 0

/-- Python `float(...)` on the strings the capture groups can produce
(digits and at most one dot, commas already stripped): `none` exactly
where `float` raises `ValueError`, otherwise the exact rational value. -/
def pyFloat (l : Str) : Option ℚ :=
  if (∀ c ∈ l, isDig c ∨ c = '.') ∧
     (l.countP (fun c => c == '.') ≤ 1) ∧ (∃ c ∈ l, isDig c) then
    some ((natOfDigits (l.takeWhile (fun c => !(c == '.'))) : ℚ) +
      (natOfDigits ((l.dropWhile (fun c => !(c == '.'))).drop 1) : ℚ) /
        (10 : ℚ) ^ ((l.dropWhile (fun c => !(c == '.'))).drop 1).length)
  else none

/-- Python `int(...)` on the strings the digit-run capture group can
produce: `none` exactly where `int` raises, otherwise the value. -/
def pyInt (l : Str) : Option Nat :=
  if l ≠ [] ∧ ∀ c ∈ l, isDig c then some (natOfDigits l) else none

/-- Python `str.replace` of commas by the empty string. -/
def stripCommas (l : Str) : Str := l.filter (fun c => !(c == ','))

/-- Embedding of `extract_invoice_id`: search the single identifier pattern
in the uppercased filename, returning the capture, or the original filename
unchanged when the pattern does not match. -/
def extract_invoice_id (filename : String) : String :=
  match searchCap ID_PAT (pyUpper filename.toList) with
  | some g => String.mk g
  | none => filename

/-- Whether `needle` is a prefix of the second list. -/
def isPrefixL : Str → Str → Bool
  | [], _ => true
  | _ :: _, [] => false
  | a :: as, b :: bs => a == b && isPrefixL as bs

/-- Python substring containment (`needle in hay`). -/
def containsTok (needle : Str) : Str → Bool
  | [] => isPrefixL needle []
  | c :: t => isPrefixL needle (c :: t) || containsTok needle t

/-- Embedding of `extract_currency_from_filename`: membership tests for the
space-prefixed currency tokens in the uppercased filename, in source order. -/
def extract_currency_from_filename (filename : String) : Option String :=
  let name := pyUpper filename.toList
  if containsTok (" CAD".toList) name then some "CAD"
  else if containsTok (" USD".toList) name then some "USD"
  else if containsTok (" EUR".toList) name then some "EUR"
  else none

/-- The normalized output record of the parser.  `Freight_Mode` is a plain
string because the source always assigns the constant string Air; every
other extracted field is optional.  The timestamp is the formatted clock
string passed to the parser. -/
structure Record where
  Timestamp : String
  Filename : String
  Invoice_Date : Option String
  Currency : Option String
  Shipper : Option String
  Weight_KG : Option ℚ
  Volume_M3 : Option ℚ
  Chargeable_KG : Option ℚ
  Chargeable_CBM : Option ℚ
  Pieces : Option Nat
  Subtotal : Option ℚ
  Freight_Mode : String
  Freight_Rate : Option ℚ
deriving DecidableEq

/-- The invoice-date section of the parser: on a match, strip the capture;
if it contains a dot, split on dots and reassemble year-month-day (a
malformed split would raise, hence the outer `none`); otherwise pass the
capture through.  The outer option is the exception level, the inner option
is field absence. -/
def dateField (s : Str) : Option (Option String) :=
  match searchCap INVOICE_DATE_PAT s with
  | some g =>
      let ds := pyStrip g
      if '.' ∈ ds then
        match splitDot ds with
        | [d, mth, y] => some (some (String.mk (y ++ ['-'] ++ mth ++ ['-'] ++ d)))
        | _ => none
      else some (some (String.mk ds))
  | none => some none

/-- The shipper section of the parser: the KLN pattern first, then the KN
pattern, the first line of the match stripped. -/
def shipperField (s : Str) : Option String :=
  match searchCap SHIPPER_PAT_KLN s with
  | some g => some (String.mk (pyStrip g))
  | none =>
      match searchCap SHIPPER_PAT_KN s with
      | some g => some (String.mk (pyStrip g))
      | none => none

/-- The pieces section of the parser: integer conversion of the capture. -/
def piecesField (s : Str) : Option (Option Nat) :=
  match searchCap PIECES_PAT s with
  | some g => (pyInt g).map some
  | none => some none

/-- The weight section of the parser: float conversion of the capture. -/
def weightField (s : Str) : Option (Option ℚ) :=
  match searchCap WEIGHT_PAT s with
  | some g => (pyFloat g).map some
  | none => some none

/-- The volume section of the parser: a direct CBM figure, else the volume
weight figure divided by 167. -/
def volumeField (s : Str) : Option (Option ℚ) :=
  match searchCap VOLUME_PAT s with
  | some g => (pyFloat g).map some
  | none =>
      match searchCap VOLUME_WEIGHT_KG_PAT s with
      | some g => (pyFloat g).map (fun x => some (x / 167))
      | none => some none

/-- The chargeable-weight section of the parser: a direct figure, else,
when both weight and volume are present and truthy (nonzero, matching the
Python `and` test), the greater of weight and volume times 167. -/
def chargeableField (s : Str) (weight volume : Option ℚ) : Option (Option ℚ) :=
  match searchCap CHARGEABLE_KG_PAT s with
  | some g => (pyFloat g).map some
  | none =>
      match weight, volume with
      | some w, some v =>
          if w ≠ 0 ∧ v ≠ 0 then some (some (max w (v * 167))) else some none
      | _, _ => some none

/-- The freight-rate section of the parser: the KN pattern first, then the
KLN pattern, commas stripped before float conversion. -/
def freightField (s : Str) : Option (Option ℚ) :=
  match searchCap KN_FREIGHT_USD_PAT s with
  | some g => (pyFloat (stripCommas g)).map some
  | none =>
      match searchCap KLN_FREIGHT_AMOUNT_PAT s with
      | some g => (pyFloat (stripCommas g)).map some
      | none => some none

/-- The subtotal section of the parser: commas stripped before float
conversion of the capture. -/
def subtotalField (s : Str) : Option (Option ℚ) :=
  match searchCap SUBTOTAL_PAT s with
  | some g => (pyFloat (stripCommas g)).map some
  | none => some none

/-- Embedding of the field-extraction core of `parse_invoice_pdf_bytes`:
the document text (pages already joined) and the filename go in, one record
or a document-level failure comes out.  A conversion error anywhere yields
`none`, mirroring the blanket exception handler of the source.  The clock
string `now` becomes the timestamp. -/
def parse_invoice_text (text filename now : String) : Option Record := do
  let s := text.toList
  let inv_date ← dateField s
  let currency := extract_currency_from_filename filename
  let shipper := shipperField s
  let pieces ← piecesField s
  let weight ← weightField s
  let volume ← volumeField s
  let chargeable_kg ← chargeableField s weight volume
  let chargeable_cbm := volume
  let f_rate ← freightField s
  let subtotal ← subtotalField s
  pure
    { Timestamp := now
      Filename := extract_invoice_id filename
      Invoice_Date := inv_date
      Currency := currency
      Shipper := shipper
      Weight_KG := weight
      Volume_M3 := volume
      Chargeable_KG := chargeable_kg
      Chargeable_CBM := chargeable_cbm
      Pieces := pieces
      Subtotal := subtotal
      Freight_Mode := "Air"
      Freight_Rate := f_rate }

/-! ### Soundness of the matcher

The denotational language of a regex, and the proof that whenever the
backtracking matcher succeeds, the consumed span belongs to that language.
The context-dependent assertions (word boundary, end of line) consume
nothing, so they denote the empty string here, which is all the capture
shape arguments below need. -/

/-- Chunk membership in the language of a regex. -/
inductive Lang : RE → Str → Prop where
  | eps : Lang RE.eps []
  | cls {p c} : p c = true → Lang (RE.cls p) [c]
  | cat {a b l1 l2} : Lang a l1 → Lang b l2 → Lang (RE.cat a b) (l1 ++ l2)
  | altL {a b l} : Lang a l → Lang (RE.alt a b) l
  | altR {a b l} : Lang b l → Lang (RE.alt a b) l
  | starGnil {r} : Lang (RE.starG r) []
  | starGcons {r l1 l2} : Lang r l1 → Lang (RE.starG r) l2 → Lang (RE.starG r) (l1 ++ l2)
  | starLnil {r} : Lang (RE.starL r) []
  | starLcons {r l1 l2} : Lang r l1 → Lang (RE.starL r) l2 → Lang (RE.starL r) (l1 ++ l2)
  | bnd : Lang RE.bnd []
  | eol : Lang RE.eol []

theorem oalt_eq_some {α : Type} {a b : Option α} {v : α} :
    oalt a b = some v ↔ a = some v ∨ (a = none ∧ b = some v) := by
  cases a <;> simp [oalt]

theorem extractL_self (s : Str) (i : Nat) : extractL s i i = [] := by
  simp [extractL]

theorem extractL_single (s : Str) (i : Nat) (c : Char) (h : s[i]? = some c) :
    extractL s i (i + 1) = [c] := by
  have hi : i < s.length := by
    by_contra hn
    rw [List.getElem?_eq_none (by omega)] at h
    exact Option.noConfusion h
  have hc : s[i] = c := by
    have := List.getElem?_eq_getElem hi
    rw [this] at h
    exact Option.some.inj h
  simp only [extractL, Nat.add_sub_cancel_left]
  rw [List.drop_eq_getElem_cons hi]
  simp [hc]

theorem extractL_append (s : Str) {i j l : Nat} (h1 : i ≤ j) (h2 : j ≤ l) :
    extractL s i j ++ extractL s j l = extractL s i l := by
  simp only [extractL]
  have hd : s.drop j = (s.drop i).drop (j - i) := by
    rw [List.drop_drop]
    congr 1
    omega
  rw [hd]
  have hsum : l - i = (j - i) + (l - j) := by omega
  rw [hsum, List.take_add]

theorem starGr_sound (s : Str) (r : RE)
    (step : Nat → (Nat → Option (Nat × Nat)) → Option (Nat × Nat))
    (hstep : ∀ i k v, step i k = some v →
      ∃ j, i ≤ j ∧ Lang r (extractL s i j) ∧ k j = some v) :
    ∀ fuel i k v, starGr step fuel i k = some v →
      ∃ j, i ≤ j ∧ Lang (RE.starG r) (extractL s i j) ∧ k j = some v := by
  intro fuel
  induction fuel with
  | zero =>
      intro i k v h
      simp only [starGr] at h
      exact ⟨i, le_refl i, by rw [extractL_self]; exact Lang.starGnil, h⟩
  | succ fuel ih =>
      intro i k v h
      simp only [starGr] at h
      rcases oalt_eq_some.mp h with hs | ⟨-, hk⟩
      · obtain ⟨j1, hij1, hl1, hcont⟩ := hstep _ _ _ hs
        by_cases hlt : i < j1
        · rw [if_pos hlt] at hcont
          obtain ⟨j2, hj12, hl2, hk2⟩ := ih _ _ _ hcont
          refine ⟨j2, by omega, ?_, hk2⟩
          rw [← extractL_append s hij1 hj12]
          exact Lang.starGcons hl1 hl2
        · rw [if_neg hlt] at hcont
          exact absurd hcont (by simp)
      · exact ⟨i, le_refl i, by rw [extractL_self]; exact Lang.starGnil, hk⟩

theorem starLz_sound (s : Str) (r : RE)
    (step : Nat → (Nat → Option (Nat × Nat)) → Option (Nat × Nat))
    (hstep : ∀ i k v, step i k = some v →
      ∃ j, i ≤ j ∧ Lang r (extractL s i j) ∧ k j = some v) :
    ∀ fuel i k v, starLz step fuel i k = some v →
      ∃ j, i ≤ j ∧ Lang (RE.starL r) (extractL s i j) ∧ k j = some v := by
  intro fuel
  induction fuel with
  | zero =>
      intro i k v h
      simp only [starLz] at h
      exact ⟨i, le_refl i, by rw [extractL_self]; exact Lang.starLnil, h⟩
  | succ fuel ih =>
      intro i k v h
      simp only [starLz] at h
      rcases oalt_eq_some.mp h with hk | ⟨-, hs⟩
      · exact ⟨i, le_refl i, by rw [extractL_self]; exact Lang.starLnil, hk⟩
      · obtain ⟨j1, hij1, hl1, hcont⟩ := hstep _ _ _ hs
        by_cases hlt : i < j1
        · rw [if_pos hlt] at hcont
          obtain ⟨j2, hj12, hl2, hk2⟩ := ih _ _ _ hcont
          refine ⟨j2, by omega, ?_, hk2⟩
          rw [← extractL_append s hij1 hj12]
          exact Lang.starLcons hl1 hl2
        · rw [if_neg hlt] at hcont
          exact absurd hcont (by simp)

theorem matchRE_sound (s : Str) (r : RE) :
    ∀ i k v, matchRE s r i k = some v →
      ∃ j, i ≤ j ∧ Lang r (extractL s i j) ∧ k j = some v := by
  induction r with
  | eps =>
      intro i k v h
      simp only [matchRE] at h
      exact ⟨i, le_refl i, by rw [extractL_self]; exact Lang.eps, h⟩
  | cls p =>
      intro i k v h
      simp only [matchRE] at h
      rcases hc : s[i]? with - | c
      · rw [hc] at h
        exact absurd h (by simp)
      · rw [hc] at h
        dsimp only at h
        by_cases hp : p c
        · rw [if_pos hp] at h
          exact ⟨i + 1, by omega,
            by rw [extractL_single s i c hc]; exact Lang.cls hp, h⟩
        · rw [if_neg hp] at h
          exact absurd h (by simp)
  | cat a b iha ihb =>
      intro i k v h
      simp only [matchRE] at h
      obtain ⟨j1, hij1, hla, h2⟩ := iha _ _ _ h
      obtain ⟨j2, hj12, hlb, h3⟩ := ihb _ _ _ h2
      refine ⟨j2, by omega, ?_, h3⟩
      rw [← extractL_append s hij1 hj12]
      exact Lang.cat hla hlb
  | alt a b iha ihb =>
      intro i k v h
      simp only [matchRE] at h
      rcases oalt_eq_some.mp h with ha | ⟨-, hb⟩
      · obtain ⟨j, hij, hl, hk⟩ := iha _ _ _ ha
        exact ⟨j, hij, Lang.altL hl, hk⟩
      · obtain ⟨j, hij, hl, hk⟩ := ihb _ _ _ hb
        exact ⟨j, hij, Lang.altR hl, hk⟩
  | starG r ihr =>
      intro i k v h
      simp only [matchRE] at h
      exact starGr_sound s r _ (fun i k v hh => ihr i k v hh) _ i k v h
  | starL r ihr =>
      intro i k v h
      simp only [matchRE] at h
      exact starLz_sound s r _ (fun i k v hh => ihr i k v hh) _ i k v h
  | bnd =>
      intro i k v h
      simp only [matchRE] at h
      by_cases hb : wordBoundary s i
      · rw [if_pos hb] at h
        exact ⟨i, le_refl i, by rw [extractL_self]; exact Lang.bnd, h⟩
      · rw [if_neg hb] at h
        exact absurd h (by simp)
  | eol =>
      intro i k v h
      simp only [matchRE] at h
      by_cases hb : atEol s i
      · rw [if_pos hb] at h
        exact ⟨i, le_refl i, by rw [extractL_self]; exact Lang.eol, h⟩
      · rw [if_neg hb] at h
        exact absurd h (by simp)

theorem firstSome_sound (f : Nat → Option (Nat × Nat)) :
    ∀ c i v, firstSome f c i = some v → ∃ i0, f i0 = some v := by
  intro c
  induction c with
  | zero => intro i v h; simp [firstSome] at h
  | succ c ih =>
      intro i v h
      simp only [firstSome] at h
      rcases oalt_eq_some.mp h with hf | ⟨-, hr⟩
      · exact ⟨i, hf⟩
      · exact ih _ _ hr

/-- Every capture the search produces belongs to the language of the
capture group of the pattern. -/
theorem searchCap_lang {p : Pat} {s : Str} {g : Str}
    (h : searchCap p s = some g) : Lang p.grp g := by
  simp only [searchCap, Option.map_eq_some'] at h
  obtain ⟨sp, hsp, hg⟩ := h
  obtain ⟨i0, hi0⟩ := firstSome_sound _ _ _ _ hsp
  simp only [searchCapAt] at hi0
  obtain ⟨j, -, -, h2⟩ := matchRE_sound s p.pre _ _ _ hi0
  obtain ⟨l, -, hl, h3⟩ := matchRE_sound s p.grp _ _ _ h2
  obtain ⟨e, -, -, h4⟩ := matchRE_sound s p.post _ _ _ h3
  have hsp2 : sp = (j, l) := (Option.some.inj h4).symm
  subst hsp2
  have hge : extractL s j l = g := hg
  exact hge ▸ hl

/-! ### Shapes of the date and identifier captures -/

theorem seqCls_lang {ps : List (Char → Bool)} {l : Str}
    (h : Lang (seqCls ps) l) : List.Forall₂ (fun p c => p c = true) ps l := by
  induction ps generalizing l with
  | nil =>
      simp only [seqCls, List.foldr_nil] at h
      cases h
      exact List.Forall₂.nil
  | cons p t ih =>
      simp only [seqCls, List.foldr_cons] at h
      cases h with
      | cat h1 h2 =>
          cases h1 with
          | cls hp => exact List.Forall₂.cons hp (ih h2)

/-- A captured dot-separated date: two digits, dot, two digits, dot, four
digits. -/
def DotForm (g : Str) : Prop :=
  ∃ d1 d2 m1 m2 y1 y2 y3 y4,
    g = [d1, d2, '.', m1, m2, '.', y1, y2, y3, y4] ∧
    isDig d1 = true ∧ isDig d2 = true ∧ isDig m1 = true ∧ isDig m2 = true ∧
    isDig y1 = true ∧ isDig y2 = true ∧ isDig y3 = true ∧ isDig y4 = true

/-- A dash-separated year-month-day string: four digits, dash, two digits,
dash, two digits. -/
def DashForm (g : Str) : Prop :=
  ∃ y1 y2 y3 y4 m1 m2 d1 d2,
    g = [y1, y2, y3, y4, '-', m1, m2, '-', d1, d2] ∧
    isDig y1 = true ∧ isDig y2 = true ∧ isDig y3 = true ∧ isDig y4 = true ∧
    isDig m1 = true ∧ isDig m2 = true ∧ isDig d1 = true ∧ isDig d2 = true

theorem forall₂_cons_inv {R : (Char → Bool) → Char → Prop}
    {p : Char → Bool} {ps : List (Char → Bool)} {l : Str}
    (h : List.Forall₂ R (p :: ps) l) :
    ∃ c t, l = c :: t ∧ R p c ∧ List.Forall₂ R ps t := by
  cases h with
  | cons h1 h2 => exact ⟨_, _, rfl, h1, h2⟩

theorem forall₂_nil_inv {R : (Char → Bool) → Char → Prop} {l : Str}
    (h : List.Forall₂ R [] l) : l = [] := by
  cases h
  rfl

theorem dateGrp_shape {g : Str} (h : Lang dateGrp g) : DotForm g ∨ DashForm g := by
  cases h with
  | altL h1 =>
      left
      have hf := seqCls_lang h1
      obtain ⟨d1, t, rfl, hd1, hf⟩ := forall₂_cons_inv hf
      obtain ⟨d2, t, rfl, hd2, hf⟩ := forall₂_cons_inv hf
      obtain ⟨c1, t, rfl, hc1, hf⟩ := forall₂_cons_inv hf
      obtain ⟨m1, t, rfl, hm1, hf⟩ := forall₂_cons_inv hf
      obtain ⟨m2, t, rfl, hm2, hf⟩ := forall₂_cons_inv hf
      obtain ⟨c2, t, rfl, hc2, hf⟩ := forall₂_cons_inv hf
      obtain ⟨y1, t, rfl, hy1, hf⟩ := forall₂_cons_inv hf
      obtain ⟨y2, t, rfl, hy2, hf⟩ := forall₂_cons_inv hf
      obtain ⟨y3, t, rfl, hy3, hf⟩ := forall₂_cons_inv hf
      obtain ⟨y4, t, rfl, hy4, hf⟩ := forall₂_cons_inv hf
      rw [forall₂_nil_inv hf]
      have hc1e : c1 = '.' := by simpa using hc1
      have hc2e : c2 = '.' := by simpa using hc2
      subst hc1e hc2e
      exact ⟨d1, d2, m1, m2, y1, y2, y3, y4, rfl,
        hd1, hd2, hm1, hm2, hy1, hy2, hy3, hy4⟩
  | altR h1 =>
      right
      have hf := seqCls_lang h1
      obtain ⟨y1, t, rfl, hy1, hf⟩ := forall₂_cons_inv hf
      obtain ⟨y2, t, rfl, hy2, hf⟩ := forall₂_cons_inv hf
      obtain ⟨y3, t, rfl, hy3, hf⟩ := forall₂_cons_inv hf
      obtain ⟨y4, t, rfl, hy4, hf⟩ := forall₂_cons_inv hf
      obtain ⟨c1, t, rfl, hc1, hf⟩ := forall₂_cons_inv hf
      obtain ⟨m1, t, rfl, hm1, hf⟩ := forall₂_cons_inv hf
      obtain ⟨m2, t, rfl, hm2, hf⟩ := forall₂_cons_inv hf
      obtain ⟨c2, t, rfl, hc2, hf⟩ := forall₂_cons_inv hf
      obtain ⟨d1, t, rfl, hd1, hf⟩ := forall₂_cons_inv hf
      obtain ⟨d2, t, rfl, hd2, hf⟩ := forall₂_cons_inv hf
      rw [forall₂_nil_inv hf]
      have hc1e : c1 = '-' := by simpa using hc1
      have hc2e : c2 = '-' := by simpa using hc2
      subst hc1e hc2e
      exact ⟨y1, y2, y3, y4, m1, m2, d1, d2, rfl,
        hy1, hy2, hy3, hy4, hm1, hm2, hd1, hd2⟩

/-! ### Facts about digits, stripping and splitting -/

theorem space_not_digit {c : Char} (h : isPySpace c = true) : isDig c = false := by
  simp only [isPySpace, Bool.or_eq_true, beq_iff_eq] at h
  rcases h with ((((h | h) | h) | h) | h) | h <;> subst h <;> decide

theorem digit_not_space {c : Char} (h : isDig c = true) : isPySpace c = false := by
  cases hs : isPySpace c
  · rfl
  · rw [space_not_digit hs] at h
    exact absurd h (by simp)

theorem digit_ne_dot {c : Char} (h : isDig c = true) : ¬c = '.' := by
  intro he
  subst he
  exact absurd h (by decide)

theorem digit_ne_dash {c : Char} (h : isDig c = true) : ¬c = '-' := by
  intro he
  subst he
  exact absurd h (by decide)

theorem dropWhile_eq_self_of {p : Char → Bool} {l : Str}
    (h : ∀ c ∈ l, p c = false) : l.dropWhile p = l := by
  cases l with
  | nil => rfl
  | cons c t => simp [List.dropWhile_cons, h c (by simp)]

theorem pyStrip_eq_self {l : Str} (h : ∀ c ∈ l, isPySpace c = false) :
    pyStrip l = l := by
  unfold pyStrip
  rw [dropWhile_eq_self_of h,
    dropWhile_eq_self_of (by intro c hc; exact h c (List.mem_reverse.mp hc)),
    List.reverse_reverse]

/-- On a dot-form capture, the date section reassembles year, month, day
with dash separators. -/
theorem dateField_dot {s g : Str} (hs : searchCap INVOICE_DATE_PAT s = some g)
    (hdot : DotForm g) :
    dateField s = some (some (String.mk
      (g.drop 6 ++ ['-'] ++ (g.drop 3).take 2 ++ ['-'] ++ g.take 2))) := by
  obtain ⟨d1, d2, m1, m2, y1, y2, y3, y4, rfl,
    hd1, hd2, hm1, hm2, hy1, hy2, hy3, hy4⟩ := hdot
  simp only [dateField, hs]
  rw [pyStrip_eq_self (by
    intro c hc
    simp only [List.mem_cons, List.not_mem_nil, or_false] at hc
    rcases hc with rfl | rfl | rfl | rfl | rfl | rfl | rfl | rfl | rfl | rfl <;>
      first
        | exact digit_not_space (by assumption)
        | decide)]
  rw [if_pos (by simp)]
  have e1 := digit_ne_dot hd1
  have e2 := digit_ne_dot hd2
  have e3 := digit_ne_dot hm1
  have e4 := digit_ne_dot hm2
  have e5 := digit_ne_dot hy1
  have e6 := digit_ne_dot hy2
  have e7 := digit_ne_dot hy3
  have e8 := digit_ne_dot hy4
  simp [splitDot, e1, e2, e3, e4, e5, e6, e7, e8]

/-- On a dash-form capture, the date section passes the capture through. -/
theorem dateField_dash {s g : Str} (hs : searchCap INVOICE_DATE_PAT s = some g)
    (hdash : DashForm g) :
    dateField s = some (some (String.mk g)) := by
  obtain ⟨y1, y2, y3, y4, m1, m2, d1, d2, rfl,
    hy1, hy2, hy3, hy4, hm1, hm2, hd1, hd2⟩ := hdash
  simp only [dateField, hs]
  rw [pyStrip_eq_self (by
    intro c hc
    simp only [List.mem_cons, List.not_mem_nil, or_false] at hc
    rcases hc with rfl | rfl | rfl | rfl | rfl | rfl | rfl | rfl | rfl | rfl <;>
      first
        | exact digit_not_space (by assumption)
        | decide)]
  rw [if_neg (by
    simp only [List.mem_cons, List.not_mem_nil, or_false]
    push_neg
    refine ⟨?_, ?_, ?_, ?_, by decide, ?_, ?_, by decide, ?_, ?_⟩ <;>
      exact fun he => digit_ne_dot (by assumption) he.symm)]

/-! ### Inversion of the parser -/

/-- The record the parser assembles from its components. -/
def mkRecord (filename now : String) (s : Str)
    (d : Option String) (p : Option Nat) (w v ck fr st : Option ℚ) : Record :=
  { Timestamp := now
    Filename := extract_invoice_id filename
    Invoice_Date := d
    Currency := extract_currency_from_filename filename
    Shipper := shipperField s
    Weight_KG := w
    Volume_M3 := v
    Chargeable_KG := ck
    Chargeable_CBM := v
    Pieces := p
    Subtotal := st
    Freight_Mode := "Air"
    Freight_Rate := fr }

/-- The parser returns a record exactly when every fallible section
returns, and the record is assembled from the section results. -/
theorem parse_some_iff (text filename now : String) (r : Record) :
    parse_invoice_text text filename now = some r ↔
    ∃ d p w v ck fr st,
      dateField text.toList = some d ∧
      piecesField text.toList = some p ∧
      weightField text.toList = some w ∧
      volumeField text.toList = some v ∧
      chargeableField text.toList w v = some ck ∧
      freightField text.toList = some fr ∧
      subtotalField text.toList = some st ∧
      r = mkRecord filename now text.toList d p w v ck fr st := by
  constructor
  · intro h
    simp only [parse_invoice_text, bind, Option.bind_eq_some, Option.pure_def,
      Option.some.injEq] at h
    obtain ⟨d, hd, p, hp, w, hw, v, hv, ck, hck, fr, hfr, st, hst, hr⟩ := h
    exact ⟨d, p, w, v, ck, fr, st, hd, hp, hw, hv, hck, hfr, hst, by
      rw [← hr]; rfl⟩
  · rintro ⟨d, p, w, v, ck, fr, st, hd, hp, hw, hv, hck, hfr, hst, rfl⟩
    simp only [parse_invoice_text, bind, Option.bind_eq_some, Option.pure_def,
      Option.some.injEq]
    exact ⟨d, hd, p, hp, w, hw, v, hv, ck, hck, fr, hfr, st, hst, rfl⟩

/-! ### Nonnegativity of the numeric conversions -/

theorem pyFloat_nonneg {l : Str} {q : ℚ} (h : pyFloat l = some q) : 0 ≤ q := by
  unfold pyFloat at h
  split at h
  · rw [← Option.some.inj h]
    positivity
  · exact absurd h (by simp)

theorem weightField_nonneg {s : Str} {x : ℚ}
    (h : weightField s = some (some x)) : 0 ≤ x := by
  unfold weightField at h
  rcases hs : searchCap WEIGHT_PAT s with - | g <;> rw [hs] at h <;> dsimp only at h
  · exact absurd (Option.some.inj h) (by simp)
  · obtain ⟨q, hq, he⟩ := Option.map_eq_some'.mp h
    rw [← Option.some.inj he]
    exact pyFloat_nonneg hq

theorem volumeField_nonneg {s : Str} {x : ℚ}
    (h : volumeField s = some (some x)) : 0 ≤ x := by
  unfold volumeField at h
  rcases hs : searchCap VOLUME_PAT s with - | g <;> rw [hs] at h <;> dsimp only at h
  · rcases hs2 : searchCap VOLUME_WEIGHT_KG_PAT s with - | g2 <;>
      rw [hs2] at h <;> dsimp only at h
    · exact absurd (Option.some.inj h) (by simp)
    · obtain ⟨q, hq, he⟩ := Option.map_eq_some'.mp h
      rw [← Option.some.inj he]
      exact div_nonneg (pyFloat_nonneg hq) (by norm_num)
  · obtain ⟨q, hq, he⟩ := Option.map_eq_some'.mp h
    rw [← Option.some.inj he]
    exact pyFloat_nonneg hq

theorem chargeableField_nonneg {s : Str} {w v : Option ℚ} {x : ℚ}
    (hw : ∀ q : ℚ, w = some q → 0 ≤ q)
    (h : chargeableField s w v = some (some x)) : 0 ≤ x := by
  unfold chargeableField at h
  rcases hs : searchCap CHARGEABLE_KG_PAT s with - | g <;> rw [hs] at h <;>
    dsimp only at h
  · rcases w with - | w0 <;> rcases v with - | v0 <;> dsimp only at h
    · exact absurd (Option.some.inj h) (by simp)
    · exact absurd (Option.some.inj h) (by simp)
    · exact absurd (Option.some.inj h) (by simp)
    · split at h
      · have hx : max w0 (v0 * 167) = x :=
          Option.some.inj (Option.some.inj h)
        rw [← hx]
        exact le_trans (hw w0 rfl) (le_max_left _ _)
      · exact absurd (Option.some.inj h) (by simp)
  · obtain ⟨q, hq, he⟩ := Option.map_eq_some'.mp h
    rw [← Option.some.inj he]
    exact pyFloat_nonneg hq

theorem freightField_nonneg {s : Str} {x : ℚ}
    (h : freightField s = some (some x)) : 0 ≤ x := by
  unfold freightField at h
  rcases hs : searchCap KN_FREIGHT_USD_PAT s with - | g <;> rw [hs] at h <;>
    dsimp only at h
  · rcases hs2 : searchCap KLN_FREIGHT_AMOUNT_PAT s with - | g2 <;>
      rw [hs2] at h <;> dsimp only at h
    · exact absurd (Option.some.inj h) (by simp)
    · obtain ⟨q, hq, he⟩ := Option.map_eq_some'.mp h
      rw [← Option.some.inj he]
      exact pyFloat_nonneg hq
  · obtain ⟨q, hq, he⟩ := Option.map_eq_some'.mp h
    rw [← Option.some.inj he]
    exact pyFloat_nonneg hq

theorem subtotalField_nonneg {s : Str} {x : ℚ}
    (h : subtotalField s = some (some x)) : 0 ≤ x := by
  unfold subtotalField at h
  rcases hs : searchCap SUBTOTAL_PAT s with - | g <;> rw [hs] at h <;> dsimp only at h
  · exact absurd (Option.some.inj h) (by simp)
  · obtain ⟨q, hq, he⟩ := Option.map_eq_some'.mp h
    rw [← Option.some.inj he]
    exact pyFloat_nonneg hq

/-! ### The claims -/

/-- C9: in every record the parser returns, every numeric field
(Weight_KG, Volume_M3, Chargeable_KG, Chargeable_CBM, Pieces, Subtotal,
Freight_Rate) is, when present, greater than or equal to zero. -/
theorem numeric_fields_nonnegative (text filename now : String) (r : Record)
    (h : parse_invoice_text text filename now = some r) :
    (∀ q : ℚ, r.Weight_KG = some q → 0 ≤ q) ∧
    (∀ q : ℚ, r.Volume_M3 = some q → 0 ≤ q) ∧
    (∀ q : ℚ, r.Chargeable_KG = some q → 0 ≤ q) ∧
    (∀ q : ℚ, r.Chargeable_CBM = some q → 0 ≤ q) ∧
    (∀ n : Nat, r.Pieces = some n → 0 ≤ (n : ℚ)) ∧
    (∀ q : ℚ, r.Subtotal = some q → 0 ≤ q) ∧
    (∀ q : ℚ, r.Freight_Rate = some q → 0 ≤ q) := by
  obtain ⟨d, p, w, v, ck, fr, st, hd, hp, hw, hv, hck, hfr, hst, rfl⟩ :=
    (parse_some_iff text filename now r).mp h
  refine ⟨?_, ?_, ?_, ?_, ?_, ?_, ?_⟩
  · intro q hq
    exact weightField_nonneg (by rw [hw, show w = some q from hq])
  · intro q hq
    exact volumeField_nonneg (by rw [hv, show v = some q from hq])
  · intro q hq
    refine chargeableField_nonneg (fun q2 hq2 => ?_)
      (by rw [hck, show ck = some q from hq])
    exact weightField_nonneg (by rw [hw, hq2])
  · intro q hq
    exact volumeField_nonneg (by rw [hv, show v = some q from hq])
  · intro n _
    positivity
  · intro q hq
    exact subtotalField_nonneg (by rw [hst, show st = some q from hq])
  · intro q hq
    exact freightField_nonneg (by rw [hfr, show fr = some q from hq])

/-- Witness for C9 at a concrete document. -/
theorem numeric_fields_nonnegative_witness :
    ∃ r : Record,
      parse_invoice_text "Gross Weight 100 KG\n1.0 CBM" "w.pdf" "T" = some r ∧
      (∀ q : ℚ, r.Weight_KG = some q → 0 ≤ q) ∧
      (∀ q : ℚ, r.Chargeable_KG = some q → 0 ≤ q) := by
  have hr : parse_invoice_text "Gross Weight 100 KG\n1.0 CBM" "w.pdf" "T" = some
      { Timestamp := "T", Filename := "w.pdf", Invoice_Date := none,
        Currency := none, Shipper := none, Weight_KG := some 100,
        Volume_M3 := some 1, Chargeable_KG := some 167, Chargeable_CBM := some 1,
        Pieces := none, Subtotal := none, Freight_Mode := "Air",
        Freight_Rate := none } := by with_unfolding_all rfl
  have h := numeric_fields_nonnegative _ _ _ _ hr
  exact ⟨_, hr, h.1, h.2.2.1⟩

/-- C10: for a fixed document text and filename, two runs of the parser
agree on every field except the timestamp, which is taken from the clock
argument; success or failure of the document is independent of the clock. -/
theorem parse_deterministic_modulo_timestamp (text filename t1 t2 : String) :
    ((parse_invoice_text text filename t1).isSome ↔
      (parse_invoice_text text filename t2).isSome) ∧
    ∀ r1 r2 : Record, parse_invoice_text text filename t1 = some r1 →
      parse_invoice_text text filename t2 = some r2 →
      r1.Timestamp = t1 ∧ r2.Timestamp = t2 ∧
      r1.Filename = r2.Filename ∧ r1.Invoice_Date = r2.Invoice_Date ∧
      r1.Currency = r2.Currency ∧ r1.Shipper = r2.Shipper ∧
      r1.Weight_KG = r2.Weight_KG ∧ r1.Volume_M3 = r2.Volume_M3 ∧
      r1.Chargeable_KG = r2.Chargeable_KG ∧
      r1.Chargeable_CBM = r2.Chargeable_CBM ∧
      r1.Pieces = r2.Pieces ∧ r1.Subtotal = r2.Subtotal ∧
      r1.Freight_Mode = r2.Freight_Mode ∧ r1.Freight_Rate = r2.Freight_Rate := by
  have aux : ∀ ta tb : String, (parse_invoice_text text filename ta).isSome →
      (parse_invoice_text text filename tb).isSome := by
    intro ta tb h
    rw [Option.isSome_iff_exists] at h ⊢
    obtain ⟨r, hr⟩ := h
    obtain ⟨d, p, w, v, ck, fr, st, hd, hp, hw, hv, hck, hfr, hst, -⟩ :=
      (parse_some_iff text filename ta r).mp hr
    exact ⟨mkRecord filename tb text.toList d p w v ck fr st,
      (parse_some_iff text filename tb _).mpr
        ⟨d, p, w, v, ck, fr, st, hd, hp, hw, hv, hck, hfr, hst, rfl⟩⟩
  refine ⟨⟨aux t1 t2, aux t2 t1⟩, ?_⟩
  intro r1 r2 h1 h2
  obtain ⟨d, p, w, v, ck, fr, st, hd, hp, hw, hv, hck, hfr, hst, rfl⟩ :=
    (parse_some_iff text filename t1 r1).mp h1
  obtain ⟨d2, p2, w2, v2, ck2, fr2, st2, hd2, hp2, hw2, hv2, hck2, hfr2, hst2,
    rfl⟩ := (parse_some_iff text filename t2 r2).mp h2
  obtain rfl : d = d2 := Option.some.inj (hd.symm.trans hd2)
  obtain rfl : p = p2 := Option.some.inj (hp.symm.trans hp2)
  obtain rfl : w = w2 := Option.some.inj (hw.symm.trans hw2)
  obtain rfl : v = v2 := Option.some.inj (hv.symm.trans hv2)
  obtain rfl : ck = ck2 := Option.some.inj (hck.symm.trans hck2)
  obtain rfl : fr = fr2 := Option.some.inj (hfr.symm.trans hfr2)
  obtain rfl : st = st2 := Option.some.inj (hst.symm.trans hst2)
  exact ⟨rfl, rfl, rfl, rfl, rfl, rfl, rfl, rfl, rfl, rfl, rfl, rfl, rfl, rfl⟩

/-- Witness for C10 at a concrete document and two clock values. -/
theorem parse_deterministic_modulo_timestamp_witness :
    ∃ r1 r2 : Record,
      parse_invoice_text "2.5 CBM x" "n.pdf" "t1" = some r1 ∧
      parse_invoice_text "2.5 CBM x" "n.pdf" "t2" = some r2 ∧
      r1.Timestamp = "t1" ∧ r2.Timestamp = "t2" ∧
      r1.Volume_M3 = r2.Volume_M3 ∧ r1.Filename = r2.Filename := by
  have h1 : parse_invoice_text "2.5 CBM x" "n.pdf" "t1" = some
      { Timestamp := "t1", Filename := "n.pdf", Invoice_Date := none,
        Currency := none, Shipper := none, Weight_KG := none,
        Volume_M3 := some (5 / 2 : ℚ), Chargeable_KG := none,
        Chargeable_CBM := some (5 / 2 : ℚ), Pieces := none, Subtotal := none,
        Freight_Mode := "Air", Freight_Rate := none } := by with_unfolding_all rfl
  have h2 : parse_invoice_text "2.5 CBM x" "n.pdf" "t2" = some
      { Timestamp := "t2", Filename := "n.pdf", Invoice_Date := none,
        Currency := none, Shipper := none, Weight_KG := none,
        Volume_M3 := some (5 / 2 : ℚ), Chargeable_KG := none,
        Chargeable_CBM := some (5 / 2 : ℚ), Pieces := none, Subtotal := none,
        Freight_Mode := "Air", Freight_Rate := none } := by with_unfolding_all rfl
  have h :=
    (parse_deterministic_modulo_timestamp "2.5 CBM x" "n.pdf" "t1" "t2").2 _ _ h1 h2
  exact ⟨_, _, h1, h2, h.1, h.2.1, h.2.2.2.2.2.2.2.1, h.2.2.1⟩

/-- C7 counterexample: on a document whose volume comes from the KLN
volume-weight fallback, Chargeable_CBM is copied from Volume_M3 (both 2)
rather than staying independently absent; the source assigns the copy
unconditionally for every format. -/
theorem chargeable_cbm_mirror_counterexample :
    ∃ r : Record, parse_invoice_text "Volume Weight: 334" "g.pdf" "T" = some r ∧
      r.Volume_M3 = some 2 ∧ r.Chargeable_CBM = some 2 ∧
      ¬r.Chargeable_CBM = none := by
  have hr : parse_invoice_text "Volume Weight: 334" "g.pdf" "T" = some
      { Timestamp := "T", Filename := "g.pdf", Invoice_Date := none,
        Currency := none, Shipper := none, Weight_KG := none,
        Volume_M3 := some 2, Chargeable_KG := none, Chargeable_CBM := some 2,
        Pieces := none, Subtotal := none, Freight_Mode := "Air",
        Freight_Rate := none } := by with_unfolding_all rfl
  exact ⟨_, hr, rfl, rfl, by simp⟩

/-- C7 amended: in every record the parser returns, Chargeable_CBM equals
Volume_M3 — the copy is universal across formats, absent exactly when the
volume is absent, never independently absent. -/
theorem chargeable_cbm_always_mirrors_volume (text filename now : String)
    (r : Record) (hr : parse_invoice_text text filename now = some r) :
    r.Chargeable_CBM = r.Volume_M3 := by
  obtain ⟨d, p, w, v, ck, fr, st, -, -, -, -, -, -, -, rfl⟩ :=
    (parse_some_iff text filename now r).mp hr
  rfl

/-- Witness for the amended C7 at a concrete document. -/
theorem chargeable_cbm_always_mirrors_volume_witness :
    ∃ r : Record, parse_invoice_text "2.5 CBM" "h.pdf" "T" = some r ∧
      r.Chargeable_CBM = r.Volume_M3 := by
  have hr : parse_invoice_text "2.5 CBM" "h.pdf" "T" = some
      { Timestamp := "T", Filename := "h.pdf", Invoice_Date := none,
        Currency := none, Shipper := none, Weight_KG := none,
        Volume_M3 := some (5 / 2 : ℚ), Chargeable_KG := none,
        Chargeable_CBM := some (5 / 2 : ℚ), Pieces := none, Subtotal := none,
        Freight_Mode := "Air", Freight_Rate := none } := by
    with_unfolding_all rfl
  exact ⟨_, hr, chargeable_cbm_always_mirrors_volume _ _ _ _ hr⟩

/-- C1 counterexample: a document containing none of the recognized labels
yields a record, but the Freight_Mode field resolves to the constant string
Air rather than being absent, so the only always-resolving fields are not
just Timestamp and Filename. -/
theorem absence_freight_mode_counterexample :
    ∃ r : Record,
      parse_invoice_text "hi" "report.pdf" "2024-01-01 00:00:00" = some r ∧
      r.Freight_Mode = "Air" ∧ r.Invoice_Date = none ∧ r.Currency = none ∧
      r.Shipper = none ∧ r.Weight_KG = none ∧ r.Volume_M3 = none ∧
      r.Chargeable_KG = none ∧ r.Chargeable_CBM = none ∧ r.Pieces = none ∧
      r.Subtotal = none ∧ r.Freight_Rate = none := by
  have hr : parse_invoice_text "hi" "report.pdf" "2024-01-01 00:00:00" = some
      { Timestamp := "2024-01-01 00:00:00", Filename := "report.pdf",
        Invoice_Date := none, Currency := none, Shipper := none,
        Weight_KG := none, Volume_M3 := none, Chargeable_KG := none,
        Chargeable_CBM := none, Pieces := none, Subtotal := none,
        Freight_Mode := "Air", Freight_Rate := none } := by decide
  exact ⟨_, hr, rfl, rfl, rfl, rfl, rfl, rfl, rfl, rfl, rfl, rfl, rfl⟩

/-- C1 amended: a document in which no recognized pattern matches (and
whose filename holds no currency token) yields a record, not a failure,
with every optional field absent; Timestamp, Filename and the constant
Freight_Mode (the string Air) are the only resolved fields. -/
theorem absence_yields_sparse_record (text filename now : String)
    (h1 : searchCap INVOICE_DATE_PAT text.toList = none)
    (h2 : searchCap SHIPPER_PAT_KLN text.toList = none)
    (h3 : searchCap SHIPPER_PAT_KN text.toList = none)
    (h4 : searchCap PIECES_PAT text.toList = none)
    (h5 : searchCap WEIGHT_PAT text.toList = none)
    (h6 : searchCap VOLUME_PAT text.toList = none)
    (h7 : searchCap VOLUME_WEIGHT_KG_PAT text.toList = none)
    (h8 : searchCap CHARGEABLE_KG_PAT text.toList = none)
    (h9 : searchCap KN_FREIGHT_USD_PAT text.toList = none)
    (h10 : searchCap KLN_FREIGHT_AMOUNT_PAT text.toList = none)
    (h11 : searchCap SUBTOTAL_PAT text.toList = none)
    (h12 : extract_currency_from_filename filename = none) :
    parse_invoice_text text filename now = some
      { Timestamp := now, Filename := extract_invoice_id filename,
        Invoice_Date := none, Currency := none, Shipper := none,
        Weight_KG := none, Volume_M3 := none, Chargeable_KG := none,
        Chargeable_CBM := none, Pieces := none, Subtotal := none,
        Freight_Mode := "Air", Freight_Rate := none } := by
  rw [parse_some_iff]
  refine ⟨none, none, none, none, none, none, none, ?_, ?_, ?_, ?_, ?_, ?_, ?_, ?_⟩
  · simp only [dateField, h1]
  · simp only [piecesField, h4]
  · simp only [weightField, h5]
  · simp only [volumeField, h6, h7]
  · simp only [chargeableField, h8]
  · simp only [freightField, h9, h10]
  · simp only [subtotalField, h11]
  · simp only [mkRecord, shipperField, h2, h3, h12]

/-- Witness for the amended C1 at a concrete label-free document. -/
theorem absence_yields_sparse_record_witness :
    parse_invoice_text "hi" "box.pdf" "T" = some
      { Timestamp := "T", Filename := "box.pdf",
        Invoice_Date := none, Currency := none, Shipper := none,
        Weight_KG := none, Volume_M3 := none, Chargeable_KG := none,
        Chargeable_CBM := none, Pieces := none, Subtotal := none,
        Freight_Mode := "Air", Freight_Rate := none } := by
  have h := absence_yields_sparse_record "hi" "box.pdf" "T"
    (by decide) (by decide) (by decide) (by decide) (by decide) (by decide)
    (by decide) (by decide) (by decide) (by decide) (by decide) (by decide)
  rw [h]
  simp [show extract_invoice_id "box.pdf" = "box.pdf" from by decide]

/-- C2: the weight pattern can capture the malformed numeric text 1.2.3, on
which float conversion fails; the source has no per-field guard, so the
raised error reaches the document-level handler and the parser returns a
document-level failure instead of recording the field as absent. -/
theorem malformed_numeric_capture_fails_document :
    searchCap WEIGHT_PAT ("Gross Weight 1.2.3 KG".toList) =
      some ("1.2.3".toList) ∧
    pyFloat ("1.2.3".toList) = none ∧
    parse_invoice_text "Gross Weight 1.2.3 KG" "inv.pdf" "T" = none := by
  exact ⟨by decide, by decide, by decide⟩

theorem dotForm_not_dashForm {g : Str} (h1 : DotForm g) (h2 : DashForm g) :
    False := by
  obtain ⟨d1, d2, m1, m2, y1, y2, y3, y4, hg1, hd1, hd2, hm1, hm2, -⟩ := h1
  obtain ⟨Y1, Y2, Y3, Y4, M1, M2, D1, D2, hg2, -⟩ := h2
  rw [hg1] at hg2
  simp only [List.cons.injEq] at hg2
  exact digit_ne_dash hm2 hg2.2.2.2.2.1

/-- C3: whenever the invoice-date pattern matches, the capture is either a
dot-separated day-month-year date or a dash-separated year-month-day date;
the parser re-emits the dot form with its pieces reordered to
year-month-day and passes the dash form through unchanged, so Invoice_Date,
when the pattern matches, is always a dash-separated year-month-day
string. -/
theorem invoice_date_normalized (text filename now : String) (r : Record)
    (g : Str) (hr : parse_invoice_text text filename now = some r)
    (hg : searchCap INVOICE_DATE_PAT text.toList = some g) :
    (DotForm g ∨ DashForm g) ∧
    ∃ out : Str, r.Invoice_Date = some (String.mk out) ∧ DashForm out ∧
      (DotForm g →
        out = g.drop 6 ++ ['-'] ++ (g.drop 3).take 2 ++ ['-'] ++ g.take 2) ∧
      (DashForm g → out = g) := by
  have hshape := dateGrp_shape (searchCap_lang hg)
  obtain ⟨d, p, w, v, ck, fr, st, hd, -, -, -, -, -, -, rfl⟩ :=
    (parse_some_iff text filename now r).mp hr
  refine ⟨hshape, ?_⟩
  rcases hshape with hdot | hdash
  · have hdf := dateField_dot hg hdot
    rw [hd] at hdf
    have hdval : d = some (String.mk
        (g.drop 6 ++ ['-'] ++ (g.drop 3).take 2 ++ ['-'] ++ g.take 2)) :=
      Option.some.inj hdf
    refine ⟨_, hdval, ?_, fun _ => rfl,
      fun hdash => (dotForm_not_dashForm hdot hdash).elim⟩
    obtain ⟨d1, d2, m1, m2, y1, y2, y3, y4, rfl,
      hd1, hd2, hm1, hm2, hy1, hy2, hy3, hy4⟩ := hdot
    exact ⟨y1, y2, y3, y4, m1, m2, d1, d2, rfl,
      hy1, hy2, hy3, hy4, hm1, hm2, hd1, hd2⟩
  · have hdf := dateField_dash hg hdash
    rw [hd] at hdf
    have hdval : d = some (String.mk g) := Option.some.inj hdf
    exact ⟨g, hdval, hdash,
      fun hdot => (dotForm_not_dashForm hdot hdash).elim, fun _ => rfl⟩

/-- Witness for C3 at a concrete dot-form document. -/
theorem invoice_date_normalized_witness :
    ∃ r : Record,
      parse_invoice_text "DATE: 15.03.2024" "inv1.pdf" "T" = some r ∧
      r.Invoice_Date = some "2024-03-15" ∧
      ∃ out : Str, r.Invoice_Date = some (String.mk out) ∧ DashForm out := by
  have hr : parse_invoice_text "DATE: 15.03.2024" "inv1.pdf" "T" = some
      { Timestamp := "T", Filename := "inv1.pdf",
        Invoice_Date := some "2024-03-15", Currency := none, Shipper := none,
        Weight_KG := none, Volume_M3 := none, Chargeable_KG := none,
        Chargeable_CBM := none, Pieces := none, Subtotal := none,
        Freight_Mode := "Air", Freight_Rate := none } := by decide
  have h := invoice_date_normalized "DATE: 15.03.2024" "inv1.pdf" "T" _
    ("15.03.2024".toList) hr (by decide)
  obtain ⟨-, out, h1, h2, -, -⟩ := h
  exact ⟨_, hr, rfl, out, h1, h2⟩

/-! ### The filename identifier -/

theorem lang_cls_inv {p : Char → Bool} {l : Str} (h : Lang (RE.cls p) l) :
    ∃ c, l = [c] ∧ p c = true := by
  cases h with
  | cls hp => exact ⟨_, rfl, hp⟩

theorem lang_eps_inv {l : Str} (h : Lang RE.eps l) : l = [] := by
  cases h
  rfl

theorem lang_cat_inv {a b : RE} {l : Str} (h : Lang (RE.cat a b) l) :
    ∃ l1 l2, l = l1 ++ l2 ∧ Lang a l1 ∧ Lang b l2 := by
  cases h with
  | cat h1 h2 => exact ⟨_, _, rfl, h1, h2⟩

theorem lang_optG_inv {r : RE} {l : Str} (h : Lang (optG r) l) :
    Lang r l ∨ l = [] := by
  cases h with
  | altL h1 => exact Or.inl h1
  | altR h1 => exact Or.inr (lang_eps_inv h1)

/-- Shape of an identifier capture: a run of four to six digits followed by
at most one uppercase letter. -/
def IdShape (g : Str) : Prop :=
  ∃ ds t, g = ds ++ t ∧ (∀ c ∈ ds, isDig c = true) ∧
    4 ≤ ds.length ∧ ds.length ≤ 6 ∧
    (t = [] ∨ ∃ c, t = [c] ∧ 'A' ≤ c ∧ c ≤ 'Z')

theorem idGrp_shape {g : Str} (h : Lang idGrp g) : IdShape g := by
  simp only [idGrp, cats, List.foldr_cons, List.foldr_nil] at h
  obtain ⟨l1, g1, rfl, h1, hr1⟩ := lang_cat_inv h
  obtain ⟨c1, rfl, hc1⟩ := lang_cls_inv h1
  obtain ⟨l2, g2, rfl, h2, hr2⟩ := lang_cat_inv hr1
  obtain ⟨c2, rfl, hc2⟩ := lang_cls_inv h2
  obtain ⟨l3, g3, rfl, h3, hr3⟩ := lang_cat_inv hr2
  obtain ⟨c3, rfl, hc3⟩ := lang_cls_inv h3
  obtain ⟨l4, g4, rfl, h4, hr4⟩ := lang_cat_inv hr3
  obtain ⟨c4, rfl, hc4⟩ := lang_cls_inv h4
  obtain ⟨lm, g5, rfl, hm, hr5⟩ := lang_cat_inv hr4
  obtain ⟨lt, g6, rfl, ht, hr6⟩ := lang_cat_inv hr5
  rw [lang_eps_inv hr6, List.append_nil]
  have hmid : (∀ c ∈ lm, isDig c = true) ∧ lm.length ≤ 2 := by
    rcases lang_optG_inv hm with hm1 | rfl
    · obtain ⟨l5, l6, rfl, h5, h6⟩ := lang_cat_inv hm1
      obtain ⟨c5, rfl, hc5⟩ := lang_cls_inv h5
      rcases lang_optG_inv h6 with h6a | rfl
      · obtain ⟨c6, rfl, hc6⟩ := lang_cls_inv h6a
        constructor
        · intro c hc
          simp only [List.cons_append, List.nil_append, List.mem_cons,
            List.not_mem_nil, or_false] at hc
          rcases hc with rfl | rfl <;> assumption
        · simp
      · constructor
        · intro c hc
          simp only [List.append_nil, List.mem_cons, List.not_mem_nil,
            or_false] at hc
          rw [hc]
          exact hc5
        · simp
    · exact ⟨by simp, by simp⟩
  have hlet : lt = [] ∨ ∃ c, lt = [c] ∧ 'A' ≤ c ∧ c ≤ 'Z' := by
    rcases lang_optG_inv ht with ht1 | rfl
    · obtain ⟨c7, rfl, hc7⟩ := lang_cls_inv ht1
      right
      refine ⟨c7, rfl, ?_⟩
      simpa [Bool.and_eq_true, decide_eq_true_eq] using hc7
    · exact Or.inl rfl
  refine ⟨c1 :: c2 :: c3 :: c4 :: lm, lt, by simp, ?_, ?_, ?_, hlet⟩
  · intro c hc
    simp only [List.mem_cons] at hc
    rcases hc with rfl | rfl | rfl | rfl | hc
    · exact hc1
    · exact hc2
    · exact hc3
    · exact hc4
    · exact hmid.1 c hc
  · simp
  · simp only [List.length_cons]
    omega

/-- C6 counterexample: on the empty filename the identifier resolver
returns the empty string, so the Filename field is not always non-empty;
and on a seven-digit filename the single pattern captures only the first
six digits, so there is no run-of-4-to-12-digits pattern. -/
theorem invoice_id_counterexample :
    extract_invoice_id "" = "" ∧
    extract_invoice_id "1234567.pdf" = "123456" := by
  exact ⟨by decide, by decide⟩

/-- C6 amended: identifier extraction applies one pattern — four to six
digits with an optional trailing uppercase letter — to the uppercased
filename; the leftmost match is returned, the original filename is returned
unchanged when the pattern does not match, and the result is non-empty
whenever the filename is non-empty. -/
theorem invoice_id_single_pattern (filename : String) :
    (∀ g : Str, searchCap ID_PAT (pyUpper filename.toList) = some g →
      extract_invoice_id filename = String.mk g ∧ IdShape g) ∧
    (searchCap ID_PAT (pyUpper filename.toList) = none →
      extract_invoice_id filename = filename) ∧
    (filename ≠ "" → extract_invoice_id filename ≠ "") := by
  refine ⟨?_, ?_, ?_⟩
  · intro g hg
    refine ⟨by simp only [extract_invoice_id, hg], ?_⟩
    exact idGrp_shape (searchCap_lang hg)
  · intro hn
    simp only [extract_invoice_id, hn]
  · intro hne
    rcases hsearch : searchCap ID_PAT (pyUpper filename.toList) with - | g
    · simpa only [extract_invoice_id, hsearch] using hne
    · simp only [extract_invoice_id, hsearch]
      obtain ⟨ds, t, rfl, -, h4, -, -⟩ := idGrp_shape (searchCap_lang hsearch)
      intro hemp
      have hl : ds ++ t = [] := congrArg String.toList hemp
      rw [List.append_eq_nil] at hl
      rw [hl.1] at h4
      simp at h4

/-- Witness for the amended C6 at a concrete filename. -/
theorem invoice_id_single_pattern_witness :
    extract_invoice_id "INV 26693A.pdf" = "26693A" ∧
    extract_invoice_id "INV 26693A.pdf" ≠ "" := by
  have h := (invoice_id_single_pattern "INV 26693A.pdf").1
    ("26693A".toList) (by decide)
  exact ⟨h.1, (invoice_id_single_pattern "INV 26693A.pdf").2.2 (by decide)⟩

/-- C4 counterexample: with an extracted weight of zero and a volume of
one, no chargeable-weight label in the text, the derivation is skipped
(the source tests Python truthiness, and the float zero is falsy), so
Chargeable_KG is absent instead of the greater of the weight and the
volume times 167, which would be 167. -/
theorem chargeable_zero_weight_counterexample :
    ∃ r : Record,
      parse_invoice_text "Gross Weight 0 KG\n1.0 CBM" "c.pdf" "T" = some r ∧
      searchCap CHARGEABLE_KG_PAT ("Gross Weight 0 KG\n1.0 CBM".toList) =
        none ∧
      r.Weight_KG = some 0 ∧ r.Volume_M3 = some 1 ∧
      r.Chargeable_KG = none ∧ ¬r.Chargeable_KG = some (max 0 (1 * 167)) := by
  have hr : parse_invoice_text "Gross Weight 0 KG\n1.0 CBM" "c.pdf" "T" = some
      { Timestamp := "T", Filename := "c.pdf", Invoice_Date := none,
        Currency := none, Shipper := none, Weight_KG := some 0,
        Volume_M3 := some 1, Chargeable_KG := none, Chargeable_CBM := some 1,
        Pieces := none, Subtotal := none, Freight_Mode := "Air",
        Freight_Rate := none } := by with_unfolding_all rfl
  exact ⟨_, hr, by decide, rfl, rfl, rfl, by simp⟩

/-- C4 amended: when no explicit chargeable-weight label matches and both
the extracted weight and volume are present and nonzero, the derived
chargeable weight is the greater of the weight and the volume times 167;
when either is absent or zero the field stays absent. -/
theorem chargeable_weight_derived_max (text filename now : String)
    (r : Record) (hr : parse_invoice_text text filename now = some r)
    (hc : searchCap CHARGEABLE_KG_PAT text.toList = none)
    (w v : ℚ) (hw : r.Weight_KG = some w) (hv : r.Volume_M3 = some v)
    (hw0 : w ≠ 0) (hv0 : v ≠ 0) :
    r.Chargeable_KG = some (max w (v * 167)) := by
  obtain ⟨d, p, w0, v0, ck, fr, st, -, -, hwf, hvf, hck, -, -, rfl⟩ :=
    (parse_some_iff text filename now r).mp hr
  have hw0e : w0 = some w := hw
  have hv0e : v0 = some v := hv
  subst hw0e hv0e
  simp only [chargeableField, hc] at hck
  rw [if_pos ⟨hw0, hv0⟩] at hck
  exact (Option.some.inj hck).symm

/-- Witness for the amended C4: weight 100 and volume 1 with no explicit
chargeable-weight text derive chargeable weight 167. -/
theorem chargeable_weight_derived_max_witness :
    ∃ r : Record,
      parse_invoice_text "Gross Weight 100 KG\n1.0 CBM" "d.pdf" "T" = some r ∧
      r.Chargeable_KG = some 167 := by
  have hr : parse_invoice_text "Gross Weight 100 KG\n1.0 CBM" "d.pdf" "T" =
      some
      { Timestamp := "T", Filename := "d.pdf", Invoice_Date := none,
        Currency := none, Shipper := none, Weight_KG := some 100,
        Volume_M3 := some 1, Chargeable_KG := some 167,
        Chargeable_CBM := some 1, Pieces := none, Subtotal := none,
        Freight_Mode := "Air", Freight_Rate := none } := by
    with_unfolding_all rfl
  have h := chargeable_weight_derived_max _ _ _ _ hr (by decide) 100 1 rfl rfl
    (by norm_num) (by norm_num)
  refine ⟨_, hr, ?_⟩
  rw [h]
  norm_num

/-- C5: when no direct CBM figure matches but the volume-weight pattern
does, the volume is the captured figure divided by 167; when a direct CBM
figure matches, the volume is that figure and the volume-weight fallback is
not consulted. -/
theorem volume_weight_fallback_division (text filename now : String)
    (r : Record) (hr : parse_invoice_text text filename now = some r) :
    (∀ (g : Str) (x : ℚ), searchCap VOLUME_PAT text.toList = none →
      searchCap VOLUME_WEIGHT_KG_PAT text.toList = some g →
      pyFloat g = some x → r.Volume_M3 = some (x / 167)) ∧
    (∀ (g : Str) (x : ℚ), searchCap VOLUME_PAT text.toList = some g →
      pyFloat g = some x → r.Volume_M3 = some x) := by
  obtain ⟨d, p, w, v, ck, fr, st, -, -, -, hv, -, -, -, rfl⟩ :=
    (parse_some_iff text filename now r).mp hr
  constructor
  · intro g x h1 h2 h3
    simp only [volumeField, h1, h2, h3, Option.map_some'] at hv
    exact (Option.some.inj hv).symm
  · intro g x h1 h2
    simp only [volumeField, h1, h2, Option.map_some'] at hv
    exact (Option.some.inj hv).symm

/-- Witness for C5: a volume-weight figure of 334 and no CBM figure yield
a volume of 2. -/
theorem volume_weight_fallback_division_witness :
    ∃ r : Record,
      parse_invoice_text "Volume Weight: 334" "e.pdf" "T" = some r ∧
      r.Volume_M3 = some 2 := by
  have hr : parse_invoice_text "Volume Weight: 334" "e.pdf" "T" = some
      { Timestamp := "T", Filename := "e.pdf", Invoice_Date := none,
        Currency := none, Shipper := none, Weight_KG := none,
        Volume_M3 := some 2, Chargeable_KG := none, Chargeable_CBM := some 2,
        Pieces := none, Subtotal := none, Freight_Mode := "Air",
        Freight_Rate := none } := by with_unfolding_all rfl
  have h := (volume_weight_fallback_division _ _ _ _ hr).1 ("334".toList) 334
    (by decide) (by decide) (by with_unfolding_all rfl)
  refine ⟨_, hr, ?_⟩
  rw [h]
  norm_num

/-- C8 counterexample: the subtotal uses one generic pattern anchored at
the substring Total, and the leftmost occurrence wins: on a text carrying a
generic Total line before a Subtotal line, the extracted subtotal is the
generic amount 99, not the later amount 50. -/
theorem subtotal_generic_total_counterexample :
    ∃ r : Record,
      parse_invoice_text "Total: 99.00\nSubtotal: 50.00" "s.pdf" "T" =
        some r ∧
      r.Subtotal = some 99 ∧ ¬r.Subtotal = some 50 := by
  have hr : parse_invoice_text "Total: 99.00\nSubtotal: 50.00" "s.pdf" "T" =
      some
      { Timestamp := "T", Filename := "s.pdf", Invoice_Date := none,
        Currency := none, Shipper := none, Weight_KG := none,
        Volume_M3 := none, Chargeable_KG := none, Chargeable_CBM := none,
        Pieces := none, Subtotal := some 99, Freight_Mode := "Air",
        Freight_Rate := none } := by with_unfolding_all rfl
  refine ⟨_, hr, rfl, ?_⟩
  intro hcon
  have : (99 : ℚ) = 50 := Option.some.inj hcon
  norm_num at this

/-- C8 amended: within each field the candidate patterns are consulted in
fixed source order, stopping at the first match — the KLN shipper pattern
before the KN shipper pattern, the KN freight pattern before the KLN
freight pattern — while the subtotal has a single generic pattern whose
leftmost match is taken. -/
theorem field_pattern_precedence (text filename now : String) (r : Record)
    (hr : parse_invoice_text text filename now = some r) :
    (∀ g : Str, searchCap SHIPPER_PAT_KLN text.toList = some g →
      r.Shipper = some (String.mk (pyStrip g))) ∧
    (searchCap SHIPPER_PAT_KLN text.toList = none →
      ∀ g : Str, searchCap SHIPPER_PAT_KN text.toList = some g →
      r.Shipper = some (String.mk (pyStrip g))) ∧
    (∀ (g : Str) (x : ℚ), searchCap KN_FREIGHT_USD_PAT text.toList = some g →
      pyFloat (stripCommas g) = some x → r.Freight_Rate = some x) ∧
    (searchCap KN_FREIGHT_USD_PAT text.toList = none →
      ∀ (g : Str) (x : ℚ),
      searchCap KLN_FREIGHT_AMOUNT_PAT text.toList = some g →
      pyFloat (stripCommas g) = some x → r.Freight_Rate = some x) ∧
    (∀ (g : Str) (x : ℚ), searchCap SUBTOTAL_PAT text.toList = some g →
      pyFloat (stripCommas g) = some x → r.Subtotal = some x) := by
  obtain ⟨d, p, w, v, ck, fr, st, -, -, -, -, -, hfr, hst, rfl⟩ :=
    (parse_some_iff text filename now r).mp hr
  refine ⟨?_, ?_, ?_, ?_, ?_⟩
  · intro g hg
    show shipperField text.toList = _
    simp only [shipperField, hg]
  · intro hn g hg
    show shipperField text.toList = _
    simp only [shipperField, hn, hg]
  · intro g x hg hx
    simp only [freightField, hg, hx, Option.map_some'] at hfr
    exact (Option.some.inj hfr).symm
  · intro hn g x hg hx
    simp only [freightField, hn, hg, hx, Option.map_some'] at hfr
    exact (Option.some.inj hfr).symm
  · intro g x hg hx
    simp only [subtotalField, hg, hx, Option.map_some'] at hst
    exact (Option.some.inj hst).symm

/-- Witness for the amended C8 at a concrete KN-format document. -/
theorem field_pattern_precedence_witness :
    ∃ r : Record,
      parse_invoice_text "SHIPPER: ACME\nAIRFREIGHT USD 10.00" "p.pdf" "T" =
        some r ∧
      r.Shipper = some "ACME" ∧ r.Freight_Rate = some 10 := by
  have hr : parse_invoice_text "SHIPPER: ACME\nAIRFREIGHT USD 10.00" "p.pdf"
      "T" = some
      { Timestamp := "T", Filename := "p.pdf", Invoice_Date := none,
        Currency := none, Shipper := some "ACME", Weight_KG := none,
        Volume_M3 := none, Chargeable_KG := none, Chargeable_CBM := none,
        Pieces := none, Subtotal := none, Freight_Mode := "Air",
        Freight_Rate := some 10 } := by with_unfolding_all rfl
  have h := field_pattern_precedence _ _ _ _ hr
  refine ⟨_, hr, ?_, ?_⟩
  · exact h.2.1 (by decide) ("ACME".toList) (by decide)
  · exact h.2.2.1 ("10.00".toList) 10 (by decide) (by with_unfolding_all rfl)

end Invoice
